import Mathlib

/-!
Verification of the CPU pipeline simulator core: instruction model, hazard
detector (`hazard.cpp`), branch-predictor family (`predictor.hpp`) and the
five-stage pipeline engine (`pipeline.cpp`), embedded shallowly in Lean.
C++ `int` is modelled as `Int`, `uint64_t` counters as `Nat`,
`std::unordered_map` as total/optional functions with the map's default
value, and `double` as `Rat` (the derived-metric claims concern only the
zero-denominator guards, which are exact).
-/

/-- Opcode enum from `instr.hpp`. -/
inductive Opcode
  | ADD | SUB | LOAD | STORE | BEQ | BNE | NOP | HALT
deriving DecidableEq, Repr

/-- Instruction record from `instr.hpp`; fields default as in the C++
default member initializers. -/
structure Instruction where
  op : Opcode
  rd : Int := -1
  rs1 : Int := -1
  rs2 : Int := -1
  imm : Int := 0
  id : Int := -1
  pc : Int := -1
deriving DecidableEq, Repr

/-- `Instruction{Opcode::NOP}`: aggregate-initialized NOP bubble payload. -/
def Instruction.nop : Instruction := { op := Opcode.NOP }

instance : Inhabited Instruction := ⟨Instruction.nop⟩

/-- A pipeline latch (`IFID`/`IDEX`/`EXMEM`/`MEMWB` all have this shape). -/
structure Latch where
  ins : Instruction
  valid : Bool
deriving DecidableEq, Repr

/-- An invalid bubble slot carrying a NOP payload. -/
def Latch.bubble : Latch := ⟨Instruction.nop, false⟩

/-- Default-initialized latch contents at construction time: the members of
`Instruction` take their default member initializers and `Opcode op{}`
zero-initializes to the first enumerator `ADD`; `valid` is `false`. -/
def Latch.initial : Latch := ⟨{ op := Opcode.ADD }, false⟩

/-- Stall counters from `metrics.hpp`. -/
structure StallBreakdown where
  raw : Nat := 0
  war : Nat := 0
  waw : Nat := 0
  control : Nat := 0
deriving DecidableEq, Repr

/-- `StallBreakdown::total`. -/
def StallBreakdown.total (s : StallBreakdown) : Nat :=
  s.raw + s.war + s.waw + s.control

/-- Metrics accumulator from `metrics.hpp`. -/
structure Metrics where
  cycles : Nat := 0
  retired : Nat := 0
  bp_predictions : Nat := 0
  bp_mispredictions : Nat := 0
  stalls : StallBreakdown := {}
deriving DecidableEq, Repr

/-- `Metrics::cpi`: `retired ? cycles/retired : 0.0` (double modelled as `Rat`). -/
def Metrics.cpi (m : Metrics) : Rat :=
  if m.retired = 0 then 0 else (m.cycles : Rat) / (m.retired : Rat)

/-- `Metrics::bp_accuracy_pct`: `bp_predictions ? 100*(p-m)/p : 0.0`
(the `uint64_t` difference `p - m` is the truncated natural subtraction,
identical to the C++ value whenever `m ≤ p`). -/
def Metrics.bp_accuracy_pct (m : Metrics) : Rat :=
  if m.bp_predictions = 0 then 0
  else 100 * (((m.bp_predictions - m.bp_mispredictions : Nat) : Rat) / (m.bp_predictions : Rat))

/-- Hazard kinds from `hazard.hpp`. -/
inductive HazardKind
  | None | RAW | WAR | WAW
deriving DecidableEq, Repr

/-- Decision produced by the hazard detector. -/
structure HazardDecision where
  stall : Bool := false
  kind : HazardKind := HazardKind.None
deriving DecidableEq, Repr

/-- `writes_reg` from `hazard.cpp`: ADD/SUB/LOAD with a valid destination. -/
def writes_reg (ins : Instruction) : Bool :=
  match ins.op with
  | Opcode.ADD | Opcode.SUB | Opcode.LOAD => decide (0 ≤ ins.rd)
  | _ => false

/-- `dest_reg` from `hazard.cpp`. -/
def dest_reg (ins : Instruction) : Int :=
  if writes_reg ins then ins.rd else -1

/-- `reads_r1` from `hazard.cpp`. -/
def reads_r1 (ins : Instruction) : Bool :=
  match ins.op with
  | Opcode.ADD | Opcode.SUB | Opcode.LOAD | Opcode.STORE | Opcode.BEQ | Opcode.BNE =>
      decide (0 ≤ ins.rs1)
  | _ => false

/-- `reads_r2` from `hazard.cpp`. -/
def reads_r2 (ins : Instruction) : Bool :=
  match ins.op with
  | Opcode.ADD | Opcode.SUB | Opcode.STORE | Opcode.BEQ | Opcode.BNE =>
      decide (0 ≤ ins.rs2)
  | _ => false

/-- The `check_raw_match` lambda from `detect_hazard_for_ID` (capturing the
ID instruction's read information). -/
def check_raw_match (id_ins : Instruction) (prod : Instruction) (valid : Bool) : Bool :=
  if valid = false then false
  else
    let rd := dest_reg prod
    if rd < 0 then false
    else (reads_r1 id_ins && decide (id_ins.rs1 = rd)) ||
         (reads_r2 id_ins && decide (id_ins.rs2 = rd))

/-- `detect_hazard_for_ID` from `hazard.cpp`. -/
def detect_hazard_for_ID (id_ins : Instruction) (id_valid : Bool)
    (ex_ins : Instruction) (ex_valid : Bool)
    (mem_ins : Instruction) (mem_valid : Bool)
    (wb_ins : Instruction) (wb_valid : Bool)
    (forwarding_on : Bool) : HazardDecision :=
  if id_valid = false then {}
  else if forwarding_on then
    if ex_valid && decide (ex_ins.op = Opcode.LOAD) && check_raw_match id_ins ex_ins true then
      ⟨true, HazardKind.RAW⟩
    else {}
  else
    if check_raw_match id_ins ex_ins ex_valid ||
       check_raw_match id_ins mem_ins mem_valid ||
       check_raw_match id_ins wb_ins wb_valid then
      ⟨true, HazardKind.RAW⟩
    else {}

/-- `StaticPredictor` from `predictor.hpp` (state of one instance). -/
structure StaticPredictor where
  always_taken : Bool
  total_predictions : Int := 0
  mispredictions : Int := 0
deriving DecidableEq, Repr

/-- `StaticPredictor::predict`. -/
def StaticPredictor.predict (p : StaticPredictor) (_pc : Int) : Bool × StaticPredictor :=
  (p.always_taken, { p with total_predictions := p.total_predictions + 1 })

/-- `StaticPredictor::update`. -/
def StaticPredictor.update (p : StaticPredictor) (_pc : Int) (actual : Bool) : StaticPredictor :=
  if p.always_taken ≠ actual then { p with mispredictions := p.mispredictions + 1 } else p

/-- `OneBitPredictor` state: `table` is the `unordered_map<int,bool>`
(`none` = key absent, as queried through `find`). -/
structure OneBitPredictor where
  total_predictions : Int := 0
  mispredictions : Int := 0
  table : Int → Option Bool := fun _ => none

/-- `OneBitPredictor::predict`: default not-taken for an unseen pc. -/
def OneBitPredictor.predict (p : OneBitPredictor) (pc : Int) : Bool × OneBitPredictor :=
  ((p.table pc).getD false, { p with total_predictions := p.total_predictions + 1 })

/-- `OneBitPredictor::update` (note: it calls `predict` internally). -/
def OneBitPredictor.update (p : OneBitPredictor) (pc : Int) (actual : Bool) : OneBitPredictor :=
  let pr := p.predict pc
  let p1 := if pr.1 ≠ actual then { pr.2 with mispredictions := pr.2.mispredictions + 1 } else pr.2
  { p1 with table := fun q => if q = pc then some actual else p1.table q }

/-- `TwoBitPredictor` state: `table` is the `unordered_map<int,int>` read
through `operator[]`, whose value-initialized default is `0`; it is modelled
as the total function that is `0` on unseen keys. -/
structure TwoBitPredictor where
  total_predictions : Int := 0
  mispredictions : Int := 0
  table : Int → Int := fun _ => 0

/-- A fresh `TwoBitPredictor` instance. -/
def TwoBitPredictor.init : TwoBitPredictor := {}

/-- `TwoBitPredictor::predict`: taken iff the counter is 2 or 3. -/
def TwoBitPredictor.predict (p : TwoBitPredictor) (pc : Int) : Bool × TwoBitPredictor :=
  (decide (2 ≤ p.table pc), { p with total_predictions := p.total_predictions + 1 })

/-- `TwoBitPredictor::update` (calls `predict` internally, then moves the
saturating counter). -/
def TwoBitPredictor.update (p : TwoBitPredictor) (pc : Int) (actual : Bool) : TwoBitPredictor :=
  let pr := p.predict pc
  let p1 := if pr.1 ≠ actual then { pr.2 with mispredictions := pr.2.mispredictions + 1 } else pr.2
  let st := p1.table pc
  let st2 := if actual then (if st < 3 then st + 1 else st)
             else (if 0 < st then st - 1 else st)
  { p1 with table := fun q => if q = pc then st2 else p1.table q }

/-- `TournamentPredictor` state: both components by value plus the per-pc
chooser and the recorded last component answers (`operator[]` maps with
value-initialized defaults `0` / `false`). -/
structure TournamentPredictor where
  total_predictions : Int := 0
  mispredictions : Int := 0
  onebit : OneBitPredictor := {}
  twobit : TwoBitPredictor := {}
  chooser : Int → Int := fun _ => 0
  last_p1 : Int → Bool := fun _ => false
  last_p2 : Int → Bool := fun _ => false
  used_two : Int → Bool := fun _ => false
  last_chosen : Int → Bool := fun _ => false

/-- `TournamentPredictor::predict`. -/
def TournamentPredictor.predict (t : TournamentPredictor) (pc : Int) :
    Bool × TournamentPredictor :=
  let r1 := t.onebit.predict pc
  let r2 := t.twobit.predict pc
  let ch := t.chooser pc
  let use_two := decide (2 ≤ ch)
  let chosen := if use_two then r2.1 else r1.1
  (chosen,
   { t with
     onebit := r1.2
     twobit := r2.2
     last_p1 := fun q => if q = pc then r1.1 else t.last_p1 q
     last_p2 := fun q => if q = pc then r2.1 else t.last_p2 q
     used_two := fun q => if q = pc then use_two else t.used_two q
     last_chosen := fun q => if q = pc then chosen else t.last_chosen q
     total_predictions := t.total_predictions + 1 })

/-- `TournamentPredictor::update`. -/
def TournamentPredictor.update (t : TournamentPredictor) (pc : Int) (actual : Bool) :
    TournamentPredictor :=
  let chosen := t.last_chosen pc
  let mis := if chosen ≠ actual then t.mispredictions + 1 else t.mispredictions
  let ob := t.onebit.update pc actual
  let tb := t.twobit.update pc actual
  let ch := t.chooser pc
  let p1 := t.last_p1 pc
  let p2 := t.last_p2 pc
  let ch2 :=
    if p2 = actual ∧ p1 ≠ actual then (if ch < 3 then ch + 1 else ch)
    else if p1 = actual ∧ p2 ≠ actual then (if 0 < ch then ch - 1 else ch)
    else ch
  { t with
    mispredictions := mis
    onebit := ob
    twobit := tb
    chooser := fun q => if q = pc then ch2 else t.chooser q }

/-- The virtual interface `BranchPredictor` seen by the pipeline: a state
type with `predict` and `update`. -/
structure PredIface (σ : Type) where
  predict : σ → Int → Bool × σ
  update : σ → Int → Bool → σ

/-- The `StaticPredictor` instance plugged into the interface. -/
def staticIface : PredIface StaticPredictor :=
  ⟨StaticPredictor.predict, StaticPredictor.update⟩

/-- State owned by a `Pipeline` object (`pipeline.hpp`), over predictor
state `σ`; `pred_taken_by_id` is the `unordered_map<int,bool>` keyed by
instruction id. -/
structure PState (σ : Type) where
  pc : Int
  cycle : Int
  halted : Bool
  ifid : Latch
  idex : Latch
  exmem : Latch
  memwb : Latch
  last_wb : Latch
  control_flush_bubbles : Int
  pred_taken_by_id : Int → Option Bool
  bp : σ
  m : Metrics

/-- A freshly constructed pipeline: all latches invalid, pc 0, running. -/
def initState {σ : Type} (bp0 : σ) : PState σ :=
  { pc := 0, cycle := 0, halted := false,
    ifid := Latch.initial, idex := Latch.initial,
    exmem := Latch.initial, memwb := Latch.initial,
    last_wb := Latch.bubble,
    control_flush_bubbles := 0,
    pred_taken_by_id := fun _ => none,
    bp := bp0, m := {} }

/-- `is_branch` helper from `pipeline.cpp`. -/
def is_branch (ins : Instruction) : Bool :=
  decide (ins.op = Opcode.BEQ ∨ ins.op = Opcode.BNE)

/-- `actual_taken_of` from `pipeline.cpp`: ground truth is taken iff the
immediate is negative. -/
def actual_taken_of (ins : Instruction) : Bool :=
  decide (ins.imm < 0)

/-- Convenience: the hazard decision `Pipeline::step` computes for a state. -/
def hzOf {σ : Type} (forwarding : Bool) (s : PState σ) : HazardDecision :=
  detect_hazard_for_ID s.ifid.ins s.ifid.valid s.idex.ins s.idex.valid
    s.exmem.ins s.exmem.valid s.memwb.ins s.memwb.valid forwarding

/-- Results of the fetch/stall/flush arbitration block of `Pipeline::step`
(the `control_flush_bubbles_ > 0` / `hz.stall` / normal-advance ladder). -/
structure ArbOut (σ : Type) where
  next_ex : Latch
  can_fetch : Bool
  fetch_pc : Int
  cfb : Int
  raw : Nat
  bppreds : Nat
  predMap : Int → Option Bool
  bp : σ

/-- The arbitration block of `Pipeline::step`: decides the ID→EX slot, the
fetch permission and address, performs the ID-stage branch prediction, and
counts RAW stalls. -/
def stepArb {σ : Type} (forwarding : Bool) (bpi : Option (PredIface σ)) (s : PState σ) :
    ArbOut σ :=
  let hz := hzOf forwarding s
  if 0 < s.control_flush_bubbles then
    ⟨Latch.bubble, false, s.pc, s.control_flush_bubbles - 1,
     s.m.stalls.raw, s.m.bp_predictions, s.pred_taken_by_id, s.bp⟩
  else if hz.stall then
    ⟨Latch.bubble, false, s.pc, s.control_flush_bubbles,
     s.m.stalls.raw + 1, s.m.bp_predictions, s.pred_taken_by_id, s.bp⟩
  else
    match bpi with
    | some P =>
      if s.ifid.valid && is_branch s.ifid.ins then
        let pr := P.predict s.bp s.ifid.ins.pc
        ⟨⟨s.ifid.ins, s.ifid.valid⟩, true,
         (if pr.1 then s.ifid.ins.pc + 1 + s.ifid.ins.imm else s.ifid.ins.pc + 1),
         s.control_flush_bubbles, s.m.stalls.raw, s.m.bp_predictions + 1,
         fun i => if i = s.ifid.ins.id then some pr.1 else s.pred_taken_by_id i,
         pr.2⟩
      else
        ⟨⟨s.ifid.ins, s.ifid.valid⟩, true, s.pc, s.control_flush_bubbles,
         s.m.stalls.raw, s.m.bp_predictions, s.pred_taken_by_id, s.bp⟩
    | none =>
      ⟨⟨s.ifid.ins, s.ifid.valid⟩, true, s.pc, s.control_flush_bubbles,
       s.m.stalls.raw, s.m.bp_predictions, s.pred_taken_by_id, s.bp⟩

/-- The fetch block of `Pipeline::step`: returns the new IF/ID latch and the
new program counter. -/
def stepFetch (prog : List Instruction) (halted1 : Bool) (can_fetch : Bool)
    (fetch_pc : Int) (cur_ifid : Latch) (cur_pc : Int) : Latch × Int :=
  if can_fetch then
    if halted1 = false ∧ 0 ≤ fetch_pc ∧ fetch_pc < (prog.length : Int) then
      (⟨prog.getD fetch_pc.toNat Instruction.nop, true⟩, fetch_pc + 1)
    else (Latch.bubble, cur_pc)
  else (cur_ifid, cur_pc)

/-- Results of the branch-resolution block of `Pipeline::step`. -/
structure ResOut (σ : Type) where
  ifid : Latch
  pc : Int
  cfb : Int
  mispred : Nat
  control : Nat
  predMap : Int → Option Bool
  bp : σ

/-- The branch-resolution block of `Pipeline::step`: resolves the branch in
EX against the recorded prediction, counts/flushes on mismatch, trains the
predictor and discards the stored prediction. -/
def stepResolve {σ : Type} (bpi : Option (PredIface σ)) (idex : Latch)
    (fifid : Latch) (fpc : Int) (cfb : Int)
    (mispred : Nat) (control : Nat)
    (predMap : Int → Option Bool) (bp : σ) : ResOut σ :=
  match bpi with
  | none => ⟨fifid, fpc, cfb, mispred, control, predMap, bp⟩
  | some P =>
    if idex.valid && is_branch idex.ins then
      let actual := actual_taken_of idex.ins
      let predicted := (predMap idex.ins.id).getD false
      let predMap2 := fun i => if i = idex.ins.id then none else predMap i
      let bp2 := P.update bp idex.ins.pc actual
      if predicted ≠ actual then
        ⟨Latch.bubble,
         (if actual then idex.ins.pc + 1 + idex.ins.imm else idex.ins.pc + 1),
         2, mispred + 1, control + 2, predMap2, bp2⟩
      else
        ⟨fifid, fpc, cfb, mispred, control, predMap2, bp2⟩
    else ⟨fifid, fpc, cfb, mispred, control, predMap, bp⟩

/-- `Pipeline::step` from `pipeline.cpp`: retire, hazard check, stage shift,
fetch/stall/flush arbitration, fetch, branch resolution, commit. -/
def Pipeline.step {σ : Type} (prog : List Instruction) (forwarding : Bool)
    (bpi : Option (PredIface σ)) (s : PState σ) : PState σ :=
  let halted1 := if s.memwb.valid && decide (s.memwb.ins.op = Opcode.HALT) then true else s.halted
  let retired1 :=
    if s.memwb.valid && !(decide (s.memwb.ins.op = Opcode.HALT)) &&
       !(decide (s.memwb.ins.op = Opcode.NOP))
    then s.m.retired + 1 else s.m.retired
  let a := stepArb forwarding bpi s
  let f := stepFetch prog halted1 a.can_fetch a.fetch_pc s.ifid s.pc
  let r := stepResolve bpi s.idex f.1 f.2 a.cfb s.m.bp_mispredictions s.m.stalls.control
             a.predMap a.bp
  { pc := r.pc, cycle := s.cycle + 1, halted := halted1,
    ifid := r.ifid, idex := a.next_ex, exmem := s.idex, memwb := s.exmem,
    last_wb := s.memwb,
    control_flush_bubbles := r.cfb,
    pred_taken_by_id := r.predMap, bp := r.bp,
    m := { cycles := s.m.cycles + 1, retired := retired1,
           bp_predictions := a.bppreds, bp_mispredictions := r.mispred,
           stalls := { raw := a.raw, war := s.m.stalls.war, waw := s.m.stalls.waw,
                       control := r.control } } }

/-- The retire-phase halted flag computed at the top of `Pipeline::step`. -/
def stepHalted1 {σ : Type} (s : PState σ) : Bool :=
  if s.memwb.valid && decide (s.memwb.ins.op = Opcode.HALT) then true else s.halted

/-- The fetch-block result of `Pipeline::step` on a state. -/
def stepF {σ : Type} (prog : List Instruction) (forwarding : Bool)
    (bpi : Option (PredIface σ)) (s : PState σ) : Latch × Int :=
  stepFetch prog (stepHalted1 s) (stepArb forwarding bpi s).can_fetch
    (stepArb forwarding bpi s).fetch_pc s.ifid s.pc

/-- The resolution-block result of `Pipeline::step` on a state. -/
def stepR {σ : Type} (prog : List Instruction) (forwarding : Bool)
    (bpi : Option (PredIface σ)) (s : PState σ) : ResOut σ :=
  stepResolve bpi s.idex (stepF prog forwarding bpi s).1 (stepF prog forwarding bpi s).2
    (stepArb forwarding bpi s).cfb s.m.bp_mispredictions s.m.stalls.control
    (stepArb forwarding bpi s).predMap (stepArb forwarding bpi s).bp

/-- Iterated stepping from a given state. -/
def runFrom {σ : Type} (prog : List Instruction) (forwarding : Bool)
    (bpi : Option (PredIface σ)) (s0 : PState σ) : Nat → PState σ
  | 0 => s0
  | n + 1 => Pipeline.step prog forwarding bpi (runFrom prog forwarding bpi s0 n)

/-- States reachable from the initial pipeline state by `Pipeline::step`. -/
inductive Reachable {σ : Type} (prog : List Instruction) (forwarding : Bool)
    (bpi : Option (PredIface σ)) (bp0 : σ) : PState σ → Prop
  | init : Reachable prog forwarding bpi bp0 (initState bp0)
  | step {s : PState σ} :
      Reachable prog forwarding bpi bp0 s →
      Reachable prog forwarding bpi bp0 (Pipeline.step prog forwarding bpi s)

/-- Spec-side producer predicate (§4.1): opcode ADD/SUB/LOAD writing a valid
destination register. -/
def producerSpec (i : Instruction) : Prop :=
  (i.op = Opcode.ADD ∨ i.op = Opcode.SUB ∨ i.op = Opcode.LOAD) ∧ 0 ≤ i.rd

instance (i : Instruction) : Decidable (producerSpec i) := by
  unfold producerSpec
  exact inferInstance

/-- Spec-side consumer predicate (§4.1): the ID instruction reads register
`r` through its opcode-specific source-operand positions. -/
def readsRegSpec (i : Instruction) (r : Int) : Prop :=
  match i.op with
  | Opcode.ADD | Opcode.SUB => (0 ≤ i.rs1 ∧ i.rs1 = r) ∨ (0 ≤ i.rs2 ∧ i.rs2 = r)
  | Opcode.LOAD => 0 ≤ i.rs1 ∧ i.rs1 = r
  | Opcode.STORE | Opcode.BEQ | Opcode.BNE =>
      (0 ≤ i.rs1 ∧ i.rs1 = r) ∨ (0 ≤ i.rs2 ∧ i.rs2 = r)
  | Opcode.NOP | Opcode.HALT => False

instance (i : Instruction) (r : Int) : Decidable (readsRegSpec i r) := by
  unfold readsRegSpec
  match i.op with
  | Opcode.ADD | Opcode.SUB | Opcode.LOAD | Opcode.STORE | Opcode.BEQ
  | Opcode.BNE | Opcode.NOP | Opcode.HALT => exact inferInstance

/-- Indicator of a latch holding a valid instruction. -/
def latchVal (l : Latch) : Nat := if l.valid then 1 else 0

/-- Number of valid instructions resident in the four latches. -/
def occupancy {σ : Type} (s : PState σ) : Nat :=
  latchVal s.ifid + latchVal s.idex + latchVal s.exmem + latchVal s.memwb

/-- Indicator: a predictor is attached and a valid branch occupies EX
(the only situation in which a misprediction can be charged). -/
def branchEXFlag {σ : Type} (bpi : Option (PredIface σ)) (s : PState σ) : Nat :=
  if bpi.isSome = true ∧ s.idex.valid = true ∧ is_branch s.idex.ins = true then 1 else 0

/-- Indicator: the control-flush countdown is idle. -/
def quietFlag {σ : Type} (s : PState σ) : Nat :=
  if s.control_flush_bubbles = 0 then 1 else 0

/-- Strengthened step invariant implying the Metrics invariant of the spec. -/
def pipeInv {σ : Type} (bpi : Option (PredIface σ)) (s : PState σ) : Prop :=
  0 ≤ s.control_flush_bubbles ∧
  s.m.retired + occupancy s ≤ s.m.cycles ∧
  (s.m.stalls.total + branchEXFlag bpi s + quietFlag s ≤ s.m.cycles ∨
    (s.m.cycles = 0 ∧ s.m.stalls.total = 0 ∧ s.ifid.valid = false ∧
      s.idex.valid = false ∧ s.control_flush_bubbles = 0))

/-- Well-formedness of a `TwoBitPredictor`: every stored counter is 0..3. -/
def TwoBitPredictor.wf (p : TwoBitPredictor) : Prop :=
  ∀ pc : Int, 0 ≤ p.table pc ∧ p.table pc ≤ 3

/-- Well-formedness of a tournament chooser: every counter is 0..3. -/
def TournamentPredictor.chwf (t : TournamentPredictor) : Prop :=
  ∀ pc : Int, 0 ≤ t.chooser pc ∧ t.chooser pc ≤ 3

/-- A fresh always-not-taken `StaticPredictor`. -/
def staticNT : StaticPredictor := { always_taken := false }

/-- Two consecutive self-loop branches (`BEQ r0 r0 -1`), as the trace
loader would produce them: ids and pcs 0 and 1. -/
def progC2 : List Instruction :=
  [{ op := Opcode.BEQ, rd := -1, rs1 := 0, rs2 := 0, imm := -1, id := 0, pc := 0 },
   { op := Opcode.BEQ, rd := -1, rs1 := 0, rs2 := 0, imm := -1, id := 1, pc := 1 }]

/-- Run of `progC2` with forwarding on and the always-not-taken predictor. -/
def runC2 (n : Nat) : PState StaticPredictor :=
  runFrom progC2 true (some staticIface) (initState staticNT) n

/-- A state with an unpredicted valid branch (taken: imm = -1) resolving in
EX, used to witness the misprediction-effect theorem. -/
def c1wit : PState StaticPredictor :=
  { initState staticNT with
    idex := ⟨{ op := Opcode.BEQ, rd := -1, rs1 := 0, rs2 := 0, imm := -1, id := 5, pc := 3 }, true⟩ }

/-- A load-use state: `LOAD r1, [r0+0]` in EX and `ADD r3, r1, r2` in ID. -/
def c3wit : PState StaticPredictor :=
  { initState staticNT with
    ifid := ⟨{ op := Opcode.ADD, rd := 3, rs1 := 1, rs2 := 2, imm := 0, id := 1, pc := 1 }, true⟩,
    idex := ⟨{ op := Opcode.LOAD, rd := 1, rs1 := 0, rs2 := -1, imm := 0, id := 0, pc := 0 }, true⟩ }

/-- An adjacent producer/consumer pair with forwarding off: `ADD r1,r2,r3`
in EX and `ADD r4,r1,r5` in ID, with MEM/WB empty. -/
def c5wit : PState StaticPredictor :=
  { initState staticNT with
    ifid := ⟨{ op := Opcode.ADD, rd := 4, rs1 := 1, rs2 := 5, imm := 0, id := 1, pc := 1 }, true⟩,
    idex := ⟨{ op := Opcode.ADD, rd := 1, rs1 := 2, rs2 := 3, imm := 0, id := 0, pc := 0 }, true⟩ }

theorem check_raw_match_iff (id_ins prod : Instruction) (v : Bool) :
    check_raw_match id_ins prod v = true ↔
      v = true ∧ producerSpec prod ∧ readsRegSpec id_ins prod.rd := by
  cases v with
  | false => simp [check_raw_match, producerSpec]
  | true =>
    unfold check_raw_match dest_reg writes_reg producerSpec readsRegSpec reads_r1 reads_r2
    cases hp : prod.op <;> cases hi : id_ins.op <;> simp_all <;> omega

theorem detect_off_iff (id_ins : Instruction) (id_valid : Bool)
    (ex_ins : Instruction) (ex_valid : Bool)
    (mem_ins : Instruction) (mem_valid : Bool)
    (wb_ins : Instruction) (wb_valid : Bool) :
    (detect_hazard_for_ID id_ins id_valid ex_ins ex_valid mem_ins mem_valid
        wb_ins wb_valid false).stall = true ↔
      id_valid = true ∧
        ((ex_valid = true ∧ producerSpec ex_ins ∧ readsRegSpec id_ins ex_ins.rd) ∨
         (mem_valid = true ∧ producerSpec mem_ins ∧ readsRegSpec id_ins mem_ins.rd) ∨
         (wb_valid = true ∧ producerSpec wb_ins ∧ readsRegSpec id_ins wb_ins.rd)) := by
  have hkey : (detect_hazard_for_ID id_ins id_valid ex_ins ex_valid mem_ins mem_valid
      wb_ins wb_valid false).stall =
      (id_valid && (check_raw_match id_ins ex_ins ex_valid ||
        check_raw_match id_ins mem_ins mem_valid ||
        check_raw_match id_ins wb_ins wb_valid)) := by
    unfold detect_hazard_for_ID
    cases id_valid with
    | false => simp
    | true =>
      simp only [Bool.true_and]
      rw [if_neg (by simp), if_neg (by simp)]
      split <;> simp_all
  rw [hkey]
  simp only [Bool.and_eq_true, Bool.or_eq_true, check_raw_match_iff]
  tauto

theorem detect_on_iff (id_ins : Instruction) (id_valid : Bool)
    (ex_ins : Instruction) (ex_valid : Bool)
    (mem_ins : Instruction) (mem_valid : Bool)
    (wb_ins : Instruction) (wb_valid : Bool) :
    (detect_hazard_for_ID id_ins id_valid ex_ins ex_valid mem_ins mem_valid
        wb_ins wb_valid true).stall = true ↔
      id_valid = true ∧ ex_valid = true ∧ ex_ins.op = Opcode.LOAD ∧
        0 ≤ ex_ins.rd ∧ readsRegSpec id_ins ex_ins.rd := by
  have hkey : (detect_hazard_for_ID id_ins id_valid ex_ins ex_valid mem_ins mem_valid
      wb_ins wb_valid true).stall =
      (id_valid && (ex_valid && decide (ex_ins.op = Opcode.LOAD) &&
        check_raw_match id_ins ex_ins true)) := by
    unfold detect_hazard_for_ID
    cases id_valid with
    | false => simp
    | true =>
      simp only [Bool.true_and]
      rw [if_neg (by simp), if_pos (by simp)]
      split <;> simp_all
  rw [hkey]
  simp only [Bool.and_eq_true, check_raw_match_iff, decide_eq_true_eq]
  constructor
  · rintro ⟨hv, ⟨hev, hload⟩, -, hprod, hreads⟩
    exact ⟨hv, hev, hload, hprod.2, hreads⟩
  · rintro ⟨hv, hev, hload, hrd, hreads⟩
    exact ⟨hv, ⟨hev, hload⟩, trivial, ⟨Or.inr (Or.inr hload), hrd⟩, hreads⟩

theorem step_m_cycles {σ : Type} (prog : List Instruction) (fwd : Bool)
    (bpi : Option (PredIface σ)) (s : PState σ) :
    (Pipeline.step prog fwd bpi s).m.cycles = s.m.cycles + 1 := rfl

theorem step_exmem {σ : Type} (prog : List Instruction) (fwd : Bool)
    (bpi : Option (PredIface σ)) (s : PState σ) :
    (Pipeline.step prog fwd bpi s).exmem = s.idex := rfl

theorem step_memwb {σ : Type} (prog : List Instruction) (fwd : Bool)
    (bpi : Option (PredIface σ)) (s : PState σ) :
    (Pipeline.step prog fwd bpi s).memwb = s.exmem := rfl

theorem step_idex {σ : Type} (prog : List Instruction) (fwd : Bool)
    (bpi : Option (PredIface σ)) (s : PState σ) :
    (Pipeline.step prog fwd bpi s).idex = (stepArb fwd bpi s).next_ex := rfl

theorem step_m_raw {σ : Type} (prog : List Instruction) (fwd : Bool)
    (bpi : Option (PredIface σ)) (s : PState σ) :
    (Pipeline.step prog fwd bpi s).m.stalls.raw = (stepArb fwd bpi s).raw := rfl

theorem step_m_war {σ : Type} (prog : List Instruction) (fwd : Bool)
    (bpi : Option (PredIface σ)) (s : PState σ) :
    (Pipeline.step prog fwd bpi s).m.stalls.war = s.m.stalls.war := rfl

theorem step_m_waw {σ : Type} (prog : List Instruction) (fwd : Bool)
    (bpi : Option (PredIface σ)) (s : PState σ) :
    (Pipeline.step prog fwd bpi s).m.stalls.waw = s.m.stalls.waw := rfl

theorem stepArb_flush {σ : Type} (fwd : Bool) (bpi : Option (PredIface σ)) (s : PState σ)
    (h : 0 < s.control_flush_bubbles) :
    stepArb fwd bpi s =
      ⟨Latch.bubble, false, s.pc, s.control_flush_bubbles - 1,
       s.m.stalls.raw, s.m.bp_predictions, s.pred_taken_by_id, s.bp⟩ := by
  unfold stepArb
  rw [if_pos h]

theorem stepArb_stall {σ : Type} (fwd : Bool) (bpi : Option (PredIface σ)) (s : PState σ)
    (h : ¬ 0 < s.control_flush_bubbles) (hs : (hzOf fwd s).stall = true) :
    stepArb fwd bpi s =
      ⟨Latch.bubble, false, s.pc, s.control_flush_bubbles,
       s.m.stalls.raw + 1, s.m.bp_predictions, s.pred_taken_by_id, s.bp⟩ := by
  unfold stepArb
  rw [if_neg h, if_pos hs]

theorem stepArb_normal_predict {σ : Type} (fwd : Bool) (P : PredIface σ) (s : PState σ)
    (h : ¬ 0 < s.control_flush_bubbles) (hs : ¬ (hzOf fwd s).stall = true)
    (hb : (s.ifid.valid && is_branch s.ifid.ins) = true) :
    stepArb fwd (some P) s =
      ⟨⟨s.ifid.ins, s.ifid.valid⟩, true,
       (if (P.predict s.bp s.ifid.ins.pc).1 then s.ifid.ins.pc + 1 + s.ifid.ins.imm
        else s.ifid.ins.pc + 1),
       s.control_flush_bubbles, s.m.stalls.raw, s.m.bp_predictions + 1,
       fun i => if i = s.ifid.ins.id then some (P.predict s.bp s.ifid.ins.pc).1
                else s.pred_taken_by_id i,
       (P.predict s.bp s.ifid.ins.pc).2⟩ := by
  unfold stepArb
  rw [if_neg h, if_neg hs]
  simp only [hb, if_pos]

theorem stepArb_normal_nobranch {σ : Type} (fwd : Bool) (P : PredIface σ) (s : PState σ)
    (h : ¬ 0 < s.control_flush_bubbles) (hs : ¬ (hzOf fwd s).stall = true)
    (hb : ¬ (s.ifid.valid && is_branch s.ifid.ins) = true) :
    stepArb fwd (some P) s =
      ⟨⟨s.ifid.ins, s.ifid.valid⟩, true, s.pc, s.control_flush_bubbles,
       s.m.stalls.raw, s.m.bp_predictions, s.pred_taken_by_id, s.bp⟩ := by
  unfold stepArb
  rw [if_neg h, if_neg hs]
  simp only [Bool.not_eq_true] at hb
  simp only [hb]
  rfl

theorem stepArb_none {σ : Type} (fwd : Bool) (s : PState σ)
    (h : ¬ 0 < s.control_flush_bubbles) (hs : ¬ (hzOf fwd s).stall = true) :
    stepArb fwd (none : Option (PredIface σ)) s =
      ⟨⟨s.ifid.ins, s.ifid.valid⟩, true, s.pc, s.control_flush_bubbles,
       s.m.stalls.raw, s.m.bp_predictions, s.pred_taken_by_id, s.bp⟩ := by
  unfold stepArb
  rw [if_neg h, if_neg hs]

theorem stepResolve_nobranch {σ : Type} (bpi : Option (PredIface σ)) (idex : Latch)
    (fifid : Latch) (fpc : Int) (cfb : Int) (mispred : Nat) (control : Nat)
    (predMap : Int → Option Bool) (bp : σ)
    (h : (idex.valid && is_branch idex.ins) = false) :
    stepResolve bpi idex fifid fpc cfb mispred control predMap bp =
      ⟨fifid, fpc, cfb, mispred, control, predMap, bp⟩ := by
  unfold stepResolve
  cases bpi with
  | none => rfl
  | some P => simp only [h]; rfl

theorem stepResolve_mispredict {σ : Type} (P : PredIface σ) (idex : Latch)
    (fifid : Latch) (fpc : Int) (cfb : Int) (mispred : Nat) (control : Nat)
    (predMap : Int → Option Bool) (bp : σ)
    (h : (idex.valid && is_branch idex.ins) = true)
    (hm : (predMap idex.ins.id).getD false ≠ actual_taken_of idex.ins) :
    stepResolve (some P) idex fifid fpc cfb mispred control predMap bp =
      ⟨Latch.bubble,
       (if actual_taken_of idex.ins then idex.ins.pc + 1 + idex.ins.imm else idex.ins.pc + 1),
       2, mispred + 1, control + 2,
       fun i => if i = idex.ins.id then none else predMap i,
       P.update bp idex.ins.pc (actual_taken_of idex.ins)⟩ := by
  unfold stepResolve
  simp only [h, if_pos, hm, ne_eq, not_false_eq_true, if_true]

theorem stepResolve_correct {σ : Type} (P : PredIface σ) (idex : Latch)
    (fifid : Latch) (fpc : Int) (cfb : Int) (mispred : Nat) (control : Nat)
    (predMap : Int → Option Bool) (bp : σ)
    (h : (idex.valid && is_branch idex.ins) = true)
    (hm : ¬ (predMap idex.ins.id).getD false ≠ actual_taken_of idex.ins) :
    stepResolve (some P) idex fifid fpc cfb mispred control predMap bp =
      ⟨fifid, fpc, cfb, mispred, control,
       fun i => if i = idex.ins.id then none else predMap i,
       P.update bp idex.ins.pc (actual_taken_of idex.ins)⟩ := by
  have hm2 : (predMap idex.ins.id).getD false = actual_taken_of idex.ins := not_not.mp hm
  unfold stepResolve
  simp only [h, if_pos, hm2, ne_eq, not_true_eq_false, if_false]

/-- C1: for every cycle in which a valid branch resolving in EX has an actual
outcome (taken iff its immediate is negative) differing from its recorded
prediction (as looked up at resolution time), `step` increments
`bp_mispredictions` by exactly 1, arms exactly 2 control-stall cycles (the
countdown is set to 2 and `stalls.control` grows by 2), sets the program
counter to the correct target, and replaces the just-fetched next-IF/ID
entry with an invalid bubble. -/
theorem C1_mispredict_effects {σ : Type} (prog : List Instruction) (fwd : Bool)
    (P : PredIface σ) (s : PState σ)
    (hv : s.idex.valid = true) (hb : is_branch s.idex.ins = true)
    (hm : ((stepArb fwd (some P) s).predMap s.idex.ins.id).getD false ≠
      actual_taken_of s.idex.ins) :
    (Pipeline.step prog fwd (some P) s).m.bp_mispredictions = s.m.bp_mispredictions + 1 ∧
    (Pipeline.step prog fwd (some P) s).m.stalls.control = s.m.stalls.control + 2 ∧
    (Pipeline.step prog fwd (some P) s).control_flush_bubbles = 2 ∧
    (Pipeline.step prog fwd (some P) s).pc =
      (if actual_taken_of s.idex.ins then s.idex.ins.pc + 1 + s.idex.ins.imm
       else s.idex.ins.pc + 1) ∧
    (Pipeline.step prog fwd (some P) s).ifid = Latch.bubble := by
  have hcond : (s.idex.valid && is_branch s.idex.ins) = true := by
    simp [hv, hb]
  simp only [Pipeline.step]
  rw [stepResolve_mispredict _ _ _ _ _ _ _ _ _ hcond hm]
  exact ⟨rfl, rfl, rfl, rfl, rfl⟩

/-- Witness for C1 at a concrete state: an unpredicted taken branch
(`BEQ r0 r0 -1` at pc 3, id 5) resolving in EX. -/
theorem C1_witness :
    (Pipeline.step [] true (some staticIface) c1wit).m.bp_mispredictions =
      c1wit.m.bp_mispredictions + 1 ∧
    (Pipeline.step [] true (some staticIface) c1wit).m.stalls.control =
      c1wit.m.stalls.control + 2 ∧
    (Pipeline.step [] true (some staticIface) c1wit).control_flush_bubbles = 2 ∧
    (Pipeline.step [] true (some staticIface) c1wit).pc =
      (if actual_taken_of c1wit.idex.ins then c1wit.idex.ins.pc + 1 + c1wit.idex.ins.imm
       else c1wit.idex.ins.pc + 1) ∧
    (Pipeline.step [] true (some staticIface) c1wit).ifid = Latch.bubble :=
  C1_mispredict_effects [] true staticIface c1wit (by decide) (by decide) (by decide)

/-- C2 counterexample: with two consecutive self-loop branches and the
always-not-taken predictor, after 3 cycles the first misprediction's flush
countdown is active (2), yet a second valid branch sits in EX and stepping
once more counts another misprediction inside the first flush window. -/
theorem C2_counterexample :
    0 < (runC2 3).control_flush_bubbles ∧
    (runC2 3).idex.valid = true ∧
    is_branch (runC2 3).idex.ins = true ∧
    (runC2 3).m.bp_mispredictions = 1 ∧
    (runC2 4).m.bp_mispredictions = 2 := by
  decide

/-- C2 (amended): consecutive mispredictions can overlap. The flush squashes
only the IF-stage fetch, so an instruction in ID at the mispredict cycle
advances into EX; if it is a valid branch whose recorded prediction differs
from its actual outcome, it resolves while the control-flush countdown is
still positive, counting a second misprediction and re-arming the countdown
to 2 inside the first branch's flush window. -/
theorem C2_overlap_amended {σ : Type} (prog : List Instruction) (fwd : Bool)
    (P : PredIface σ) (s : PState σ)
    (hc : 0 < s.control_flush_bubbles)
    (hv : s.idex.valid = true) (hb : is_branch s.idex.ins = true)
    (hm : (s.pred_taken_by_id s.idex.ins.id).getD false ≠ actual_taken_of s.idex.ins) :
    (Pipeline.step prog fwd (some P) s).m.bp_mispredictions = s.m.bp_mispredictions + 1 ∧
    (Pipeline.step prog fwd (some P) s).control_flush_bubbles = 2 := by
  have hcond : (s.idex.valid && is_branch s.idex.ins) = true := by
    simp [hv, hb]
  have hm2 : ((stepArb fwd (some P) s).predMap s.idex.ins.id).getD false ≠
      actual_taken_of s.idex.ins := by
    rw [stepArb_flush fwd (some P) s hc]
    exact hm
  simp only [Pipeline.step]
  rw [stepResolve_mispredict _ _ _ _ _ _ _ _ _ hcond hm2]
  exact ⟨rfl, rfl⟩

/-- Witness for the amended C2 at the concrete overlap state reached after
3 cycles of `progC2`. -/
theorem C2_witness :
    (Pipeline.step progC2 true (some staticIface) (runC2 3)).m.bp_mispredictions =
      (runC2 3).m.bp_mispredictions + 1 ∧
    (Pipeline.step progC2 true (some staticIface) (runC2 3)).control_flush_bubbles = 2 :=
  C2_overlap_amended progC2 true staticIface (runC2 3)
    (by decide) (by decide) (by decide) (by decide)

/-- C3: with forwarding enabled the hazard detector stalls the ID
instruction exactly in the load-use case (a valid LOAD in EX whose valid
destination register is read by the valid ID instruction), and such a stall
lasts exactly one cycle: the step counts one RAW stall and the hazard check
of the successor state reports no stall (the LOAD has moved on to MEM and
the EX slot is a bubble). -/
theorem C3_load_use_only_stall (σ : Type) :
    (∀ (id_ins : Instruction) (id_valid : Bool) (ex_ins : Instruction) (ex_valid : Bool)
        (mem_ins : Instruction) (mem_valid : Bool) (wb_ins : Instruction) (wb_valid : Bool),
      (detect_hazard_for_ID id_ins id_valid ex_ins ex_valid mem_ins mem_valid
          wb_ins wb_valid true).stall = true ↔
        id_valid = true ∧ ex_valid = true ∧ ex_ins.op = Opcode.LOAD ∧ 0 ≤ ex_ins.rd ∧
          readsRegSpec id_ins ex_ins.rd) ∧
    (∀ (prog : List Instruction) (bpi : Option (PredIface σ)) (s : PState σ),
      s.control_flush_bubbles = 0 →
      (hzOf true s).stall = true →
      (Pipeline.step prog true bpi s).m.stalls.raw = s.m.stalls.raw + 1 ∧
      (hzOf true (Pipeline.step prog true bpi s)).stall = false) := by
  constructor
  · intro id_ins id_valid ex_ins ex_valid mem_ins mem_valid wb_ins wb_valid
    exact detect_on_iff id_ins id_valid ex_ins ex_valid mem_ins mem_valid wb_ins wb_valid
  · intro prog bpi s hc hs
    have hnc : ¬ 0 < s.control_flush_bubbles := by omega
    have ha := stepArb_stall true bpi s hnc hs
    have hs' : (detect_hazard_for_ID s.ifid.ins s.ifid.valid s.idex.ins s.idex.valid
        s.exmem.ins s.exmem.valid s.memwb.ins s.memwb.valid true).stall = true := hs
    obtain ⟨hidv, hexv, hload, hrd, hreads⟩ := (detect_on_iff _ _ _ _ _ _ _ _).mp hs'
    have hbr : is_branch s.idex.ins = false := by
      simp [is_branch, hload]
    have hcond : (s.idex.valid && is_branch s.idex.ins) = false := by
      simp [hbr]
    have hidex : (Pipeline.step prog true bpi s).idex = Latch.bubble := by
      rw [step_idex, ha]
    have hifid : (Pipeline.step prog true bpi s).ifid = s.ifid := by
      simp only [Pipeline.step, ha]
      rw [stepResolve_nobranch _ _ _ _ _ _ _ _ _ hcond]
      simp [stepFetch]
    constructor
    · rw [step_m_raw, ha]
    · cases hst : (hzOf true (Pipeline.step prog true bpi s)).stall with
      | false => rfl
      | true =>
        exfalso
        obtain ⟨-, hev, -⟩ := (detect_on_iff _ _ _ _ _ _ _ _).mp hst
        rw [hidex] at hev
        simp [Latch.bubble] at hev

/-- Witness for C3 at the concrete load-use state `c3wit`
(`LOAD r1,[r0]` in EX, `ADD r3,r1,r2` in ID, forwarding on). -/
theorem C3_witness :
    (Pipeline.step [] true (some staticIface) c3wit).m.stalls.raw =
      c3wit.m.stalls.raw + 1 ∧
    (hzOf true (Pipeline.step [] true (some staticIface) c3wit)).stall = false :=
  (C3_load_use_only_stall StaticPredictor).2 [] (some staticIface) c3wit
    (by decide) (by decide)

/-- C4: with forwarding disabled, the hazard detector signals a stall for
the ID instruction iff some valid instruction in EX, MEM, or WB is a
producer (ADD/SUB/LOAD with destination index ≥ 0) whose destination
register is read by the valid ID instruction through its opcode-specific
source positions; and any such stall is classified as a RAW hazard. -/
theorem C4_no_forwarding_stall_iff (id_ins : Instruction) (id_valid : Bool)
    (ex_ins : Instruction) (ex_valid : Bool)
    (mem_ins : Instruction) (mem_valid : Bool)
    (wb_ins : Instruction) (wb_valid : Bool) :
    ((detect_hazard_for_ID id_ins id_valid ex_ins ex_valid mem_ins mem_valid
        wb_ins wb_valid false).stall = true ↔
      id_valid = true ∧
        ((ex_valid = true ∧ producerSpec ex_ins ∧ readsRegSpec id_ins ex_ins.rd) ∨
         (mem_valid = true ∧ producerSpec mem_ins ∧ readsRegSpec id_ins mem_ins.rd) ∨
         (wb_valid = true ∧ producerSpec wb_ins ∧ readsRegSpec id_ins wb_ins.rd))) ∧
    ((detect_hazard_for_ID id_ins id_valid ex_ins ex_valid mem_ins mem_valid
        wb_ins wb_valid false).stall = true →
      (detect_hazard_for_ID id_ins id_valid ex_ins ex_valid mem_ins mem_valid
        wb_ins wb_valid false).kind = HazardKind.RAW) := by
  constructor
  · exact detect_off_iff id_ins id_valid ex_ins ex_valid mem_ins mem_valid wb_ins wb_valid
  · intro h
    unfold detect_hazard_for_ID at h ⊢
    split_ifs at h ⊢ <;> simp_all

/-- Witness for C4: `ADD r1,r2,r3` in MEM and `ADD r4,r1,r5` in ID, with
forwarding disabled, must stall with a RAW classification. -/
theorem C4_witness :
    (detect_hazard_for_ID
      { op := Opcode.ADD, rd := 4, rs1 := 1, rs2 := 5, imm := 0, id := 1, pc := 1 } true
      Instruction.nop false
      { op := Opcode.ADD, rd := 1, rs1 := 2, rs2 := 3, imm := 0, id := 0, pc := 0 } true
      Instruction.nop false false).stall = true :=
  (C4_no_forwarding_stall_iff _ _ _ _ _ _ _ _).1.mpr
    ⟨rfl, Or.inr (Or.inl ⟨rfl, ⟨Or.inl rfl, by decide⟩, by decide⟩)⟩

theorem producer_not_branch (i : Instruction) (hp : producerSpec i) :
    is_branch i = false := by
  rcases hp.1 with h | h | h <;> simp [is_branch, h]

theorem step_stall_state {σ : Type} (prog : List Instruction) (fwd : Bool)
    (bpi : Option (PredIface σ)) (s : PState σ)
    (h0 : s.control_flush_bubbles = 0)
    (hs : (hzOf fwd s).stall = true)
    (hnb : (s.idex.valid && is_branch s.idex.ins) = false) :
    (Pipeline.step prog fwd bpi s).ifid = s.ifid ∧
    (Pipeline.step prog fwd bpi s).idex = Latch.bubble ∧
    (Pipeline.step prog fwd bpi s).exmem = s.idex ∧
    (Pipeline.step prog fwd bpi s).memwb = s.exmem ∧
    (Pipeline.step prog fwd bpi s).control_flush_bubbles = 0 ∧
    (Pipeline.step prog fwd bpi s).m.stalls.raw = s.m.stalls.raw + 1 := by
  have hnc : ¬ 0 < s.control_flush_bubbles := by omega
  have ha := stepArb_stall fwd bpi s hnc hs
  refine ⟨?_, ?_, rfl, rfl, ?_, ?_⟩
  · simp only [Pipeline.step, ha]
    rw [stepResolve_nobranch _ _ _ _ _ _ _ _ _ hnb]
    simp [stepFetch]
  · rw [step_idex, ha]
  · simp only [Pipeline.step, ha]
    rw [stepResolve_nobranch _ _ _ _ _ _ _ _ _ hnb]
    simp [h0]
  · rw [step_m_raw, ha]

/-- C5: with forwarding disabled, an adjacent producer/consumer dependence
(valid producer in EX whose destination is read by the valid instruction in
ID, MEM and WB empty) incurs exactly one RAW stall for each of the three
lookback positions the producer traverses — EX, then MEM, then WB — for a
total of exactly three stall cycles, after which the hazard check clears. -/
theorem C5_lookback_stalls {σ : Type} (prog : List Instruction)
    (bpi : Option (PredIface σ)) (s : PState σ)
    (h0 : s.control_flush_bubbles = 0)
    (hifv : s.ifid.valid = true) (hexv : s.idex.valid = true)
    (_hmem : s.exmem.valid = false) (_hwb : s.memwb.valid = false)
    (hprod : producerSpec s.idex.ins)
    (hreads : readsRegSpec s.ifid.ins s.idex.ins.rd) :
    (Pipeline.step prog false bpi s).m.stalls.raw = s.m.stalls.raw + 1 ∧
    (Pipeline.step prog false bpi
      (Pipeline.step prog false bpi s)).m.stalls.raw = s.m.stalls.raw + 2 ∧
    (Pipeline.step prog false bpi (Pipeline.step prog false bpi
      (Pipeline.step prog false bpi s))).m.stalls.raw = s.m.stalls.raw + 3 ∧
    (hzOf false (Pipeline.step prog false bpi (Pipeline.step prog false bpi
      (Pipeline.step prog false bpi s)))).stall = false := by
  have hbr : is_branch s.idex.ins = false := producer_not_branch _ hprod
  have hnb1 : (s.idex.valid && is_branch s.idex.ins) = false := by simp [hbr]
  have hs0 : (hzOf false s).stall = true :=
    (detect_off_iff _ _ _ _ _ _ _ _).mpr ⟨hifv, Or.inl ⟨hexv, hprod, hreads⟩⟩
  obtain ⟨e1i, e1x, e1m, e1w, e1c, e1r⟩ := step_stall_state prog false bpi s h0 hs0 hnb1
  have hs1 : (hzOf false (Pipeline.step prog false bpi s)).stall = true := by
    apply (detect_off_iff _ _ _ _ _ _ _ _).mpr
    refine ⟨?_, Or.inr (Or.inl ⟨?_, ?_, ?_⟩)⟩
    · rw [e1i]; exact hifv
    · rw [e1m]; exact hexv
    · rw [e1m]; exact hprod
    · rw [e1i, e1m]; exact hreads
  have hnb2 : ((Pipeline.step prog false bpi s).idex.valid &&
      is_branch (Pipeline.step prog false bpi s).idex.ins) = false := by
    rw [e1x]; rfl
  obtain ⟨e2i, e2x, e2m, e2w, e2c, e2r⟩ :=
    step_stall_state prog false bpi (Pipeline.step prog false bpi s) e1c hs1 hnb2
  have hs2 : (hzOf false (Pipeline.step prog false bpi
      (Pipeline.step prog false bpi s))).stall = true := by
    apply (detect_off_iff _ _ _ _ _ _ _ _).mpr
    refine ⟨?_, Or.inr (Or.inr ⟨?_, ?_, ?_⟩)⟩
    · rw [e2i, e1i]; exact hifv
    · rw [e2w, e1m]; exact hexv
    · rw [e2w, e1m]; exact hprod
    · rw [e2i, e1i, e2w, e1m]; exact hreads
  have hnb3 : ((Pipeline.step prog false bpi (Pipeline.step prog false bpi s)).idex.valid &&
      is_branch (Pipeline.step prog false bpi
        (Pipeline.step prog false bpi s)).idex.ins) = false := by
    rw [e2x]; rfl
  obtain ⟨e3i, e3x, e3m, e3w, e3c, e3r⟩ :=
    step_stall_state prog false bpi
      (Pipeline.step prog false bpi (Pipeline.step prog false bpi s)) e2c hs2 hnb3
  refine ⟨e1r, ?_, ?_, ?_⟩
  · rw [e2r, e1r]
  · rw [e3r, e2r, e1r]
  · cases hst : (hzOf false (Pipeline.step prog false bpi (Pipeline.step prog false bpi
        (Pipeline.step prog false bpi s)))).stall with
    | false => rfl
    | true =>
      exfalso
      obtain ⟨-, hd⟩ := (detect_off_iff _ _ _ _ _ _ _ _).mp hst
      rcases hd with ⟨hv, -, -⟩ | ⟨hv, -, -⟩ | ⟨hv, -, -⟩
      · rw [e3x] at hv
        simp [Latch.bubble] at hv
      · rw [e3m, e2x] at hv
        simp [Latch.bubble] at hv
      · rw [e3w, e2m, e1x] at hv
        simp [Latch.bubble] at hv

/-- Witness for C5 at the concrete state `c5wit` (`ADD r1,r2,r3` in EX,
`ADD r4,r1,r5` in ID, forwarding off). -/
theorem C5_witness :
    (Pipeline.step [] false (some staticIface) c5wit).m.stalls.raw =
      c5wit.m.stalls.raw + 1 ∧
    (Pipeline.step [] false (some staticIface)
      (Pipeline.step [] false (some staticIface) c5wit)).m.stalls.raw =
      c5wit.m.stalls.raw + 2 ∧
    (Pipeline.step [] false (some staticIface) (Pipeline.step [] false (some staticIface)
      (Pipeline.step [] false (some staticIface) c5wit))).m.stalls.raw =
      c5wit.m.stalls.raw + 3 ∧
    (hzOf false (Pipeline.step [] false (some staticIface)
      (Pipeline.step [] false (some staticIface)
        (Pipeline.step [] false (some staticIface) c5wit)))).stall = false :=
  C5_lookback_stalls [] (some staticIface) c5wit (by decide) (by decide) (by decide)
    (by decide) (by decide) (by decide) (by decide)

theorem step_m_control {σ : Type} (prog : List Instruction) (fwd : Bool)
    (bpi : Option (PredIface σ)) (s : PState σ) :
    (Pipeline.step prog fwd bpi s).m.stalls.control = (stepR prog fwd bpi s).control := rfl

theorem step_cfb {σ : Type} (prog : List Instruction) (fwd : Bool)
    (bpi : Option (PredIface σ)) (s : PState σ) :
    (Pipeline.step prog fwd bpi s).control_flush_bubbles = (stepR prog fwd bpi s).cfb := rfl

theorem latchVal_le_one (l : Latch) : latchVal l ≤ 1 := by
  unfold latchVal
  split <;> omega

theorem branchEXFlag_le_one {σ : Type} (bpi : Option (PredIface σ)) (s : PState σ) :
    branchEXFlag bpi s ≤ 1 := by
  unfold branchEXFlag
  split <;> omega

theorem quietFlag_le_one {σ : Type} (s : PState σ) : quietFlag s ≤ 1 := by
  unfold quietFlag
  split <;> omega

theorem step_m_retired_le {σ : Type} (prog : List Instruction) (fwd : Bool)
    (bpi : Option (PredIface σ)) (s : PState σ) :
    (Pipeline.step prog fwd bpi s).m.retired ≤ s.m.retired + latchVal s.memwb := by
  have heq : (Pipeline.step prog fwd bpi s).m.retired =
      (if s.memwb.valid && !(decide (s.memwb.ins.op = Opcode.HALT)) &&
          !(decide (s.memwb.ins.op = Opcode.NOP))
       then s.m.retired + 1 else s.m.retired) := rfl
  rw [heq]
  split
  · next h =>
    have hv : s.memwb.valid = true := by
      simp only [Bool.and_eq_true] at h
      exact h.1.1
    simp [latchVal, hv]
  · omega

theorem hz_of_invalid_ifid {σ : Type} (fwd : Bool) (s : PState σ)
    (h : s.ifid.valid = false) : (hzOf fwd s).stall = false := by
  unfold hzOf detect_hazard_for_ID
  rw [if_pos h]

theorem stepArb_cases {σ : Type} (fwd : Bool) (bpi : Option (PredIface σ)) (s : PState σ) :
    (0 < s.control_flush_bubbles ∧ (stepArb fwd bpi s).next_ex = Latch.bubble ∧
       (stepArb fwd bpi s).raw = s.m.stalls.raw ∧
       (stepArb fwd bpi s).cfb = s.control_flush_bubbles - 1) ∨
    (¬ 0 < s.control_flush_bubbles ∧ (hzOf fwd s).stall = true ∧
       (stepArb fwd bpi s).next_ex = Latch.bubble ∧
       (stepArb fwd bpi s).raw = s.m.stalls.raw + 1 ∧
       (stepArb fwd bpi s).cfb = s.control_flush_bubbles) ∨
    (¬ 0 < s.control_flush_bubbles ∧
       (stepArb fwd bpi s).next_ex = ⟨s.ifid.ins, s.ifid.valid⟩ ∧
       (stepArb fwd bpi s).raw = s.m.stalls.raw ∧
       (stepArb fwd bpi s).cfb = s.control_flush_bubbles) := by
  by_cases hf : 0 < s.control_flush_bubbles
  · left
    rw [stepArb_flush fwd bpi s hf]
    exact ⟨hf, rfl, rfl, rfl⟩
  · by_cases hs : (hzOf fwd s).stall = true
    · right; left
      rw [stepArb_stall fwd bpi s hf hs]
      exact ⟨hf, hs, rfl, rfl, rfl⟩
    · right; right
      cases bpi with
      | none =>
        rw [stepArb_none fwd s hf hs]
        exact ⟨hf, rfl, rfl, rfl⟩
      | some P =>
        by_cases hb : (s.ifid.valid && is_branch s.ifid.ins) = true
        · rw [stepArb_normal_predict fwd P s hf hs hb]
          exact ⟨hf, rfl, rfl, rfl⟩
        · rw [stepArb_normal_nobranch fwd P s hf hs hb]
          exact ⟨hf, rfl, rfl, rfl⟩

theorem stepArb_next_ex_le {σ : Type} (fwd : Bool) (bpi : Option (PredIface σ))
    (s : PState σ) : latchVal (stepArb fwd bpi s).next_ex ≤ latchVal s.ifid := by
  rcases stepArb_cases fwd bpi s with ⟨-, h, -, -⟩ | ⟨-, -, h, -, -⟩ | ⟨-, h, -, -⟩
  · rw [h]
    simp [latchVal, Latch.bubble]
  · rw [h]
    simp [latchVal, Latch.bubble]
  · rw [h]
    try simp [latchVal]

theorem stepR_cases {σ : Type} (prog : List Instruction) (fwd : Bool)
    (bpi : Option (PredIface σ)) (s : PState σ) :
    ((stepR prog fwd bpi s).control = s.m.stalls.control + 2 ∧
       (stepR prog fwd bpi s).cfb = 2 ∧
       bpi.isSome = true ∧ s.idex.valid = true ∧ is_branch s.idex.ins = true) ∨
    ((stepR prog fwd bpi s).control = s.m.stalls.control ∧
       (stepR prog fwd bpi s).cfb = (stepArb fwd bpi s).cfb) := by
  unfold stepR stepResolve
  cases bpi with
  | none => right; exact ⟨rfl, rfl⟩
  | some P =>
    by_cases hb : (s.idex.valid && is_branch s.idex.ins) = true
    · simp only [hb, if_pos]
      by_cases hm : ((stepArb fwd (some P) s).predMap s.idex.ins.id).getD false ≠
          actual_taken_of s.idex.ins
      · left
        have hb2 := hb
        simp only [Bool.and_eq_true] at hb2
        simp only [hm, if_pos, ne_eq, not_false_eq_true, if_true]
        refine ⟨?_, ?_, ?_, hb2.1, hb2.2⟩ <;> first | rfl | trivial
      · right
        simp only [ne_eq, not_not.mp hm, not_true_eq_false, if_false]
        exact ⟨trivial, trivial⟩
    · simp only [Bool.not_eq_true] at hb
      simp only [hb]
      right
      exact ⟨rfl, rfl⟩

theorem branchEXFlag_step_bubble {σ : Type} (prog : List Instruction) (fwd : Bool)
    (bpi : Option (PredIface σ)) (s : PState σ)
    (h : (stepArb fwd bpi s).next_ex = Latch.bubble) :
    branchEXFlag bpi (Pipeline.step prog fwd bpi s) = 0 := by
  unfold branchEXFlag
  rw [step_idex, h]
  simp [Latch.bubble]

theorem pipeInv_init {σ : Type} (bpi : Option (PredIface σ)) (bp0 : σ) :
    pipeInv bpi (initState bp0) := by
  refine ⟨by simp [initState], ?_, Or.inr ⟨rfl, rfl, rfl, rfl, rfl⟩⟩
  simp [initState, occupancy, latchVal, Latch.initial]

theorem pipeInv_step {σ : Type} (prog : List Instruction) (fwd : Bool)
    (bpi : Option (PredIface σ)) (s : PState σ)
    (h : pipeInv bpi s) : pipeInv bpi (Pipeline.step prog fwd bpi s) := by
  obtain ⟨hcfb, hocc, hrest⟩ := h
  have hcy : (Pipeline.step prog fwd bpi s).m.cycles = s.m.cycles + 1 := rfl
  have htot : (Pipeline.step prog fwd bpi s).m.stalls.total =
      (stepArb fwd bpi s).raw + s.m.stalls.war + s.m.stalls.waw +
        (stepR prog fwd bpi s).control := by
    unfold StallBreakdown.total
    rw [step_m_raw, step_m_war, step_m_waw, step_m_control]
  have hocc' : (Pipeline.step prog fwd bpi s).m.retired +
      occupancy (Pipeline.step prog fwd bpi s) ≤ (Pipeline.step prog fwd bpi s).m.cycles := by
    have h1 := step_m_retired_le prog fwd bpi s
    have h2 := stepArb_next_ex_le fwd bpi s
    have h3 := latchVal_le_one (Pipeline.step prog fwd bpi s).ifid
    have h4 : occupancy (Pipeline.step prog fwd bpi s) =
        latchVal (Pipeline.step prog fwd bpi s).ifid +
        latchVal (stepArb fwd bpi s).next_ex +
        latchVal s.idex + latchVal s.exmem := by
      unfold occupancy
      rw [step_idex, step_exmem, step_memwb]
    rw [hcy, h4]
    unfold occupancy at hocc
    omega
  refine ⟨?_, hocc', ?_⟩
  · rw [step_cfb]
    rcases stepR_cases prog fwd bpi s with ⟨-, h2, -⟩ | ⟨-, h2⟩
    · rw [h2]; omega
    · rw [h2]
      rcases stepArb_cases fwd bpi s with ⟨hf, -, -, h3⟩ | ⟨hf, -, -, -, h3⟩ | ⟨hf, -, -, h3⟩ <;>
        rw [h3] <;> omega
  · left
    rcases hrest with hmain | ⟨hcy0, htot0, hifv, hidv, hcfb0⟩
    · unfold StallBreakdown.total at hmain
      rcases stepR_cases prog fwd bpi s with ⟨hc, hc2, hsome, hval, hbr⟩ | ⟨hc, hc2⟩
      · -- misprediction processed this cycle
        have hB1 : branchEXFlag bpi s = 1 := by
          unfold branchEXFlag
          rw [if_pos ⟨hsome, hval, hbr⟩]
        have hg0 : quietFlag (Pipeline.step prog fwd bpi s) = 0 := by
          unfold quietFlag
          rw [step_cfb, hc2, if_neg (by omega)]
        rw [hB1] at hmain
        rcases stepArb_cases fwd bpi s with ⟨hf, hne, hr, hcf⟩ |
            ⟨hf, hhz, hne, hr, hcf⟩ | ⟨hf, hne, hr, hcf⟩
        · have hB'0 := branchEXFlag_step_bubble prog fwd bpi s hne
          rw [htot, hcy, hr, hc, hB'0, hg0]
          omega
        · have hg1 : quietFlag s = 1 := by
            unfold quietFlag
            rw [if_pos (by omega)]
          have hB'0 := branchEXFlag_step_bubble prog fwd bpi s hne
          rw [hg1] at hmain
          rw [htot, hcy, hr, hc, hB'0, hg0]
          omega
        · have hg1 : quietFlag s = 1 := by
            unfold quietFlag
            rw [if_pos (by omega)]
          have hB'le := branchEXFlag_le_one bpi (Pipeline.step prog fwd bpi s)
          rw [hg1] at hmain
          rw [htot, hcy, hr, hc, hg0]
          omega
      · -- no misprediction this cycle
        rcases stepArb_cases fwd bpi s with ⟨hf, hne, hr, hcf⟩ |
            ⟨hf, hhz, hne, hr, hcf⟩ | ⟨hf, hne, hr, hcf⟩
        · have hB'0 := branchEXFlag_step_bubble prog fwd bpi s hne
          have hg'le := quietFlag_le_one (Pipeline.step prog fwd bpi s)
          rw [htot, hcy, hr, hc, hB'0]
          omega
        · have hg1 : quietFlag s = 1 := by
            unfold quietFlag
            rw [if_pos (by omega)]
          have hB'0 := branchEXFlag_step_bubble prog fwd bpi s hne
          have hg'le := quietFlag_le_one (Pipeline.step prog fwd bpi s)
          rw [hg1] at hmain
          rw [htot, hcy, hr, hc, hB'0]
          omega
        · have hg1 : quietFlag s = 1 := by
            unfold quietFlag
            rw [if_pos (by omega)]
          have hB'le := branchEXFlag_le_one bpi (Pipeline.step prog fwd bpi s)
          have hg'le := quietFlag_le_one (Pipeline.step prog fwd bpi s)
          rw [hg1] at hmain
          rw [htot, hcy, hr, hc]
          omega
    · -- start-like state: cycles = 0, nothing in flight yet
      unfold StallBreakdown.total at htot0
      rcases stepR_cases prog fwd bpi s with ⟨-, -, -, hval, -⟩ | ⟨hc, hc2⟩
      · rw [hidv] at hval
        exact absurd hval (by simp)
      · rcases stepArb_cases fwd bpi s with ⟨hf, -, -, -⟩ |
            ⟨-, hhz, -, -, -⟩ | ⟨hf, hne, hr, hcf⟩
        · rw [hcfb0] at hf
          omega
        · rw [hz_of_invalid_ifid fwd s hifv] at hhz
          exact absurd hhz (by simp)
        · have hB'0 : branchEXFlag bpi (Pipeline.step prog fwd bpi s) = 0 := by
            unfold branchEXFlag
            rw [step_idex, hne]
            simp [hifv]
          have hg'le := quietFlag_le_one (Pipeline.step prog fwd bpi s)
          rw [htot, hcy, hr, hc, hB'0, hcy0]
          omega

/-- C6: in every state reachable from the initial pipeline state by `step`
(for any program, forwarding flag and optional predictor), the Metrics
invariant holds: `retired ≤ cycles` and `stalls.total ≤ cycles`. -/
theorem C6_metrics_invariant {σ : Type} (prog : List Instruction) (fwd : Bool)
    (bpi : Option (PredIface σ)) (bp0 : σ) (s : PState σ)
    (h : Reachable prog fwd bpi bp0 s) :
    s.m.retired ≤ s.m.cycles ∧ s.m.stalls.total ≤ s.m.cycles := by
  have hinv : pipeInv bpi s := by
    induction h with
    | init => exact pipeInv_init bpi bp0
    | step _ ih => exact pipeInv_step _ _ _ _ ih
  obtain ⟨-, hocc, hrest⟩ := hinv
  constructor
  · omega
  · rcases hrest with h1 | ⟨hc0, ht0, -, -, -⟩
    · omega
    · omega

/-- Witness for C6 at the initial state of a run. -/
theorem C6_witness :
    (initState staticNT : PState StaticPredictor).m.retired ≤
      (initState staticNT).m.cycles ∧
    (initState staticNT).m.stalls.total ≤ (initState staticNT).m.cycles :=
  C6_metrics_invariant [] true (some staticIface) staticNT _ Reachable.init

/-- C7 counterexample: `predict` is not idempotent with respect to the
predictor's own bookkeeping — already for the static predictor, calling
`predict(0)` twice leaves a different state (total_predictions = 2) than
calling it once (total_predictions = 1). -/
theorem C7_counterexample :
    ((StaticPredictor.predict (StaticPredictor.predict staticNT 0).2 0).2 ≠
      (StaticPredictor.predict staticNT 0).2) := by
  decide

/-- C7 (amended): a repeated `predict(pc)` before the matching `update`
returns the same direction and leaves all direction-determining state
(static bias, per-pc tables, chooser, recorded component answers)
exactly as after a single call, but each call increments the
`total_predictions` counter, so the bookkeeping differs by one count per
extra call. -/
theorem C7_predict_repeat_amended :
    (∀ (p : StaticPredictor) (pc : Int),
      ((p.predict pc).2.predict pc).1 = (p.predict pc).1 ∧
      ((p.predict pc).2.predict pc).2 =
        { p with total_predictions := p.total_predictions + 2 }) ∧
    (∀ (p : OneBitPredictor) (pc : Int),
      ((p.predict pc).2.predict pc).1 = (p.predict pc).1 ∧
      ((p.predict pc).2.predict pc).2.table = p.table ∧
      ((p.predict pc).2.predict pc).2.mispredictions = p.mispredictions ∧
      ((p.predict pc).2.predict pc).2.total_predictions = p.total_predictions + 2) ∧
    (∀ (p : TwoBitPredictor) (pc : Int),
      ((p.predict pc).2.predict pc).1 = (p.predict pc).1 ∧
      ((p.predict pc).2.predict pc).2.table = p.table ∧
      ((p.predict pc).2.predict pc).2.mispredictions = p.mispredictions ∧
      ((p.predict pc).2.predict pc).2.total_predictions = p.total_predictions + 2) ∧
    (∀ (t : TournamentPredictor) (pc : Int),
      ((t.predict pc).2.predict pc).1 = (t.predict pc).1 ∧
      ((t.predict pc).2.predict pc).2.chooser = (t.predict pc).2.chooser ∧
      ((t.predict pc).2.predict pc).2.onebit.table = t.onebit.table ∧
      ((t.predict pc).2.predict pc).2.twobit.table = t.twobit.table ∧
      ((t.predict pc).2.predict pc).2.last_p1 = (t.predict pc).2.last_p1 ∧
      ((t.predict pc).2.predict pc).2.last_p2 = (t.predict pc).2.last_p2 ∧
      ((t.predict pc).2.predict pc).2.used_two = (t.predict pc).2.used_two ∧
      ((t.predict pc).2.predict pc).2.last_chosen = (t.predict pc).2.last_chosen ∧
      ((t.predict pc).2.predict pc).2.total_predictions = t.total_predictions + 2) := by
  refine ⟨?_, ?_, ?_, ?_⟩
  · intro p pc
    refine ⟨rfl, ?_⟩
    simp [StaticPredictor.predict]
    omega
  · intro p pc
    refine ⟨rfl, rfl, rfl, ?_⟩
    simp [OneBitPredictor.predict]
    omega
  · intro p pc
    refine ⟨rfl, rfl, rfl, ?_⟩
    simp [TwoBitPredictor.predict]
    omega
  · intro t pc
    refine ⟨rfl, rfl, rfl, rfl, ?_, ?_, ?_, ?_, ?_⟩
    · funext q
      by_cases hq : q = pc <;>
        simp [TournamentPredictor.predict, OneBitPredictor.predict, hq]
    · funext q
      by_cases hq : q = pc <;>
        simp [TournamentPredictor.predict, TwoBitPredictor.predict, hq]
    · funext q
      by_cases hq : q = pc <;>
        simp [TournamentPredictor.predict, hq]
    · funext q
      by_cases hq : q = pc <;>
        simp [TournamentPredictor.predict, OneBitPredictor.predict,
          TwoBitPredictor.predict, hq]
    · simp [TournamentPredictor.predict]
      omega

theorem twoBit_update_table (p : TwoBitPredictor) (pc q : Int) (actual : Bool) :
    (p.update pc actual).table q =
      (if q = pc then
        (if actual then (if p.table pc < 3 then p.table pc + 1 else p.table pc)
         else (if 0 < p.table pc then p.table pc - 1 else p.table pc))
       else p.table q) := by
  unfold TwoBitPredictor.update TwoBitPredictor.predict
  by_cases hd : (decide (2 ≤ p.table pc) ≠ actual) <;> simp [hd]

/-- C8: the 2-bit saturating predictor: an unseen pc defaults to counter 0;
`predict` answers taken iff the counter is at least 2 and never changes the
table; `update` moves the addressed counter one step toward 3 on a taken
outcome and one step toward 0 on a not-taken one, saturating at the bounds
(equivalently `min (c+1) 3` / `max (c-1) 0` on in-range counters), leaves
all other entries alone, and preserves the 0..3 range. -/
theorem C8_two_bit_saturating :
    (∀ pc : Int, TwoBitPredictor.init.table pc = 0) ∧
    (∀ (p : TwoBitPredictor) (pc : Int), (p.predict pc).1 = true ↔ 2 ≤ p.table pc) ∧
    (∀ (p : TwoBitPredictor) (pc : Int), (p.predict pc).2.table = p.table) ∧
    (∀ (p : TwoBitPredictor) (pc : Int) (actual : Bool), p.wf →
      (p.update pc actual).table pc =
        (if actual then min (p.table pc + 1) 3 else max (p.table pc - 1) 0)) ∧
    (∀ (p : TwoBitPredictor) (pc q : Int) (actual : Bool), q ≠ pc →
      (p.update pc actual).table q = p.table q) ∧
    (∀ (p : TwoBitPredictor) (pc : Int) (actual : Bool), p.wf →
      (p.update pc actual).wf) := by
  refine ⟨fun _ => rfl, ?_, fun _ _ => rfl, ?_, ?_, ?_⟩
  · intro p pc
    simp [TwoBitPredictor.predict]
  · intro p pc actual hwf
    obtain ⟨h0, h3⟩ := hwf pc
    rw [twoBit_update_table]
    simp only [if_pos rfl]
    split_ifs <;> omega
  · intro p pc q actual hq
    rw [twoBit_update_table, if_neg hq]
  · intro p pc actual hwf q
    rw [twoBit_update_table]
    obtain ⟨h0, h3⟩ := hwf pc
    obtain ⟨g0, g3⟩ := hwf q
    split_ifs <;> constructor <;> omega

/-- Witness for C8: updating a fresh table at pc 0 with a taken outcome
moves the counter from 0 to 1 and leaves pc 1 untouched. -/
theorem C8_witness :
    (TwoBitPredictor.init.update 0 true).table 0 =
      (if true then min (TwoBitPredictor.init.table 0 + 1) 3
       else max (TwoBitPredictor.init.table 0 - 1) 0) ∧
    (TwoBitPredictor.init.update 0 true).table 1 = TwoBitPredictor.init.table 1 :=
  ⟨C8_two_bit_saturating.2.2.2.1 TwoBitPredictor.init 0 true
      (fun q => by constructor <;> simp [TwoBitPredictor.init]),
   C8_two_bit_saturating.2.2.2.2.1 TwoBitPredictor.init 0 1 true (by decide)⟩

theorem tournament_update_chooser (t : TournamentPredictor) (pc q : Int) (actual : Bool) :
    (t.update pc actual).chooser q =
      (if q = pc then
        (if t.last_p2 pc = actual ∧ t.last_p1 pc ≠ actual then
           (if t.chooser pc < 3 then t.chooser pc + 1 else t.chooser pc)
         else if t.last_p1 pc = actual ∧ t.last_p2 pc ≠ actual then
           (if 0 < t.chooser pc then t.chooser pc - 1 else t.chooser pc)
         else t.chooser pc)
       else t.chooser q) := rfl

/-- C9: the tournament predictor: every `predict` runs both the 1-bit and
2-bit components (their states advance exactly as their own `predict`
would) and returns the 2-bit component's answer iff the per-pc chooser is
at least 2; every `update` trains both components with the actual outcome
and, when exactly one recorded component answer was correct, moves the
chooser one saturating step toward that component (toward 3 for the 2-bit
side, toward 0 for the 1-bit side), leaving it unchanged when the two
agreed or both erred, and other chooser entries untouched; the chooser
stays within 0..3. -/
theorem C9_tournament :
    (∀ (t : TournamentPredictor) (pc : Int),
      (t.predict pc).2.onebit = (t.onebit.predict pc).2 ∧
      (t.predict pc).2.twobit = (t.twobit.predict pc).2 ∧
      (t.predict pc).1 =
        (if 2 ≤ t.chooser pc then (t.twobit.predict pc).1 else (t.onebit.predict pc).1)) ∧
    (∀ (t : TournamentPredictor) (pc : Int) (actual : Bool),
      (t.update pc actual).onebit = t.onebit.update pc actual ∧
      (t.update pc actual).twobit = t.twobit.update pc actual) ∧
    (∀ (t : TournamentPredictor) (pc : Int) (actual : Bool), t.chwf →
      (t.update pc actual).chooser pc =
        (if t.last_p2 pc = actual ∧ t.last_p1 pc ≠ actual then min (t.chooser pc + 1) 3
         else if t.last_p1 pc = actual ∧ t.last_p2 pc ≠ actual then max (t.chooser pc - 1) 0
         else t.chooser pc)) ∧
    (∀ (t : TournamentPredictor) (pc q : Int) (actual : Bool), q ≠ pc →
      (t.update pc actual).chooser q = t.chooser q) ∧
    (∀ (t : TournamentPredictor) (pc : Int) (actual : Bool), t.chwf →
      (t.update pc actual).chwf) := by
  refine ⟨?_, fun _ _ _ => ⟨rfl, rfl⟩, ?_, ?_, ?_⟩
  · intro t pc
    refine ⟨rfl, rfl, ?_⟩
    by_cases h : 2 ≤ t.chooser pc <;> simp [TournamentPredictor.predict, h]
  · intro t pc actual hwf
    obtain ⟨h0, h3⟩ := hwf pc
    rw [tournament_update_chooser, if_pos rfl]
    split_ifs <;> omega
  · intro t pc q actual hq
    rw [tournament_update_chooser, if_neg hq]
  · intro t pc actual hwf q
    obtain ⟨h0, h3⟩ := hwf pc
    obtain ⟨g0, g3⟩ := hwf q
    rw [tournament_update_chooser]
    split_ifs <;> constructor <;> omega

/-- Witness for C9: a fresh tournament state, recorded answers disagreeing
(2-bit side correct), nudges the chooser at pc 0 from 0 to 1; other keys
stay 0. -/
theorem C9_witness :
    (TournamentPredictor.update
        { last_p2 := fun _ => true } 0 true).chooser 0 =
      (if ({ last_p2 := fun _ => true } : TournamentPredictor).last_p2 0 = true ∧
          ({ last_p2 := fun _ => true } : TournamentPredictor).last_p1 0 ≠ true then
        min (({ last_p2 := fun _ => true } : TournamentPredictor).chooser 0 + 1) 3
       else if ({ last_p2 := fun _ => true } : TournamentPredictor).last_p1 0 = true ∧
          ({ last_p2 := fun _ => true } : TournamentPredictor).last_p2 0 ≠ true then
        max (({ last_p2 := fun _ => true } : TournamentPredictor).chooser 0 - 1) 0
       else ({ last_p2 := fun _ => true } : TournamentPredictor).chooser 0) ∧
    (TournamentPredictor.update { last_p2 := fun _ => true } 0 true).chooser 7 =
      ({ last_p2 := fun _ => true } : TournamentPredictor).chooser 7 :=
  ⟨C9_tournament.2.2.1 { last_p2 := fun _ => true } 0 true
      (fun q => by constructor <;> norm_num),
   C9_tournament.2.2.2.1 { last_p2 := fun _ => true } 0 7 true (by decide)⟩

/-- C10: the derived metric queries are total and guarded against zero
denominators: `cpi` is 0 when nothing retired and otherwise the exact ratio
cycles/retired (so `cpi * retired = cycles`); `bp_accuracy_pct` is 0 when no
predictions were counted and otherwise `100 * (predictions -
mispredictions) / predictions`. -/
theorem C10_derived_metrics_guards (m : Metrics) :
    (m.retired = 0 → m.cpi = 0) ∧
    (m.retired ≠ 0 → m.cpi * (m.retired : Rat) = (m.cycles : Rat)) ∧
    (m.bp_predictions = 0 → m.bp_accuracy_pct = 0) ∧
    (m.bp_predictions ≠ 0 → m.bp_accuracy_pct * (m.bp_predictions : Rat) =
      100 * (((m.bp_predictions - m.bp_mispredictions : Nat) : Rat))) := by
  refine ⟨?_, ?_, ?_, ?_⟩
  · intro h
    unfold Metrics.cpi
    rw [if_pos h]
  · intro h
    unfold Metrics.cpi
    rw [if_neg h, div_mul_cancel₀]
    exact Nat.cast_ne_zero.mpr h
  · intro h
    unfold Metrics.bp_accuracy_pct
    rw [if_pos h]
  · intro h
    unfold Metrics.bp_accuracy_pct
    rw [if_neg h, mul_assoc, div_mul_cancel₀]
    exact Nat.cast_ne_zero.mpr h

/-- Witness for C10 at a concrete Metrics value (10 cycles, 4 retired,
5 predictions, 2 mispredictions). -/
theorem C10_witness :
    ({ cycles := 10, retired := 4, bp_predictions := 5, bp_mispredictions := 2 } :
        Metrics).cpi * ((4 : Nat) : Rat) = ((10 : Nat) : Rat) ∧
    ({ cycles := 10, retired := 4, bp_predictions := 5, bp_mispredictions := 2 } :
        Metrics).bp_accuracy_pct * ((5 : Nat) : Rat) = 100 * (((5 - 2 : Nat)) : Rat) :=
  ⟨(C10_derived_metrics_guards _).2.1 (by decide),
   (C10_derived_metrics_guards _).2.2.2 (by decide)⟩
